import Mathlib

/-!
Shallow embedding of `src/index.js` of SIDE-waise-back: a daily-quote
fill-in-the-blank API with an in-memory quote catalog, submission store and
day-lock registry.  Handlers are modelled as pure functions from the server
state (plus the request data and the current calendar day) to a response and a
new state; the JS `Set` objects become `Finset String`, the submissions `Map`
becomes an insertion-ordered list of records.
-/

namespace Waise

open List

/-- A quote record (`quotes` values in `index.js`). -/
structure Quote where
  id : String
  template : String
  author : String
  answerA : String
  answerB : String
  deriving DecidableEq, Repr

/-- A submission record (`submissions` values in `index.js`);
`likes` is the JS `Set` of device ids that have liked it. -/
structure Submission where
  id : String
  quoteId : String
  deviceId : String
  fillA : String
  fillB : String
  likes : Finset String
  deriving DecidableEq

/-- The mutable server state: the `submissions` map (as an insertion-ordered
list of its values) and the `dayLocks` set. -/
structure ServerState where
  submissions : List Submission
  dayLocks : Finset String
  deriving DecidableEq

/-- The single quote created at process start (`quotes['2025-09-08']`). -/
def quoteToday : Quote :=
  { id := "2025-09-08"
    template := "(A)를 예측하는 최선의 방법은 (B)를 창조하는 것이다."
    author := "앨런 케이"
    answerA := "미래"
    answerB := "미래" }

/-- The quote catalog `quotes` (id-keyed object with a single entry). -/
def quotes : List (String × Quote) := [(quoteToday.id, quoteToday)]

/-- `dayKey(quoteId, deviceId)` from `index.js`; the current calendar day
string is passed explicitly instead of being read from the wall clock. -/
def dayKey (quoteId deviceId day : String) : String :=
  quoteId ++ ":" ++ deviceId ++ ":" ++ day

/-- `dayLocks.add(k)`: the lock-registry write. -/
def lock (locks : Finset String) (k : String) : Finset String :=
  insert k locks

/-- `dayLocks.has(k)`: the lock-registry read. -/
def isLocked (locks : Finset String) (k : String) : Bool :=
  k ∈ locks

/-- The raw JSON request body for submit: each field may be absent. -/
structure RawBody where
  fillA : Option String
  fillB : Option String
  deriving DecidableEq, Repr

/-- Whether an optional body field satisfies `z.string().min(1).max(24)`. -/
def validStr (v : Option String) : Bool :=
  match v with
  | none => false
  | some s => 1 ≤ s.length && s.length ≤ 24

/-- The zod issue paths produced by `SubmitBody.safeParse`: one issue naming
each invalid field, in the field declaration order `fillA`, `fillB`. -/
def bodyIssues (b : RawBody) : List String :=
  (if validStr b.fillA then [] else ["fillA"]) ++
    (if validStr b.fillB then [] else ["fillB"])

/-- A successfully parsed submit body. -/
structure ParsedBody where
  fillA : String
  fillB : String
  deriving DecidableEq, Repr

/-- `SubmitBody.safeParse`: succeeds exactly when no field is invalid. -/
def parseSubmitBody (b : RawBody) : Except (List String) ParsedBody :=
  if bodyIssues b = [] then
    .ok { fillA := b.fillA.getD "", fillB := b.fillB.getD "" }
  else
    .error (bodyIssues b)

/-- The property names a plain JS object literal inherits from
`Object.prototype`; reading any of them on `quotes` yields a truthy value
(a function, or `Object.prototype` itself for `__proto__`). -/
def protoProps : List String :=
  ["constructor", "hasOwnProperty", "isPrototypeOf", "propertyIsEnumerable",
   "toLocaleString", "toString", "valueOf", "__proto__", "__defineGetter__",
   "__defineSetter__", "__lookupGetter__", "__lookupSetter__"]

/-- JS truthiness of `quotes[id]`: `quotes` is a plain object literal, so the
read walks the prototype chain — an own catalog key holds a quote record
(truthy), and an `Object.prototype` member name is truthy too.  The
`!quotes[id]` tests at index.js lines 64 and 93 therefore 404 only ids that
are neither catalog keys nor inherited property names. -/
def quoteLookupTruthy (id : String) : Bool :=
  (quotes.lookup id).isSome || protoProps.contains id

/-- Result of `POST /quotes/:id/submissions`. -/
inductive SubmitResult where
  | missingHeader
  | quoteNotFound
  | conflict
  | invalidBody (issues : List String)
  | created (id : String)
  deriving DecidableEq, Repr

/-- HTTP status of a submit result. -/
def submitStatus : SubmitResult → Nat
  | .missingHeader => 400
  | .quoteNotFound => 404
  | .conflict => 409
  | .invalidBody _ => 400
  | .created _ => 201

/-- The `POST /quotes/:id/submissions` handler.  `deviceId` is the
`X-Device-Id` header (absent or empty becomes `none`, as the middleware
stores `did || null`), `newId` is the id produced by `nanoid(12)`.
The checks happen in the source order: header, the `!quotes[id]` truthiness
test (which the prototype chain makes pass for inherited names as well as
catalog keys), day lock, body validation; on success the submission is
stored and the lock added. -/
def submitHandler (st : ServerState) (today : String) (deviceId : Option String)
    (quoteId : String) (body : RawBody) (newId : String) :
    SubmitResult × ServerState :=
  match deviceId with
  | none => (.missingHeader, st)
  | some d =>
    if ! (quoteLookupTruthy quoteId) then (.quoteNotFound, st)
    else if isLocked st.dayLocks (dayKey quoteId d today) then (.conflict, st)
    else
      match parseSubmitBody body with
      | .error issues => (.invalidBody issues, st)
      | .ok data =>
        (.created newId,
          { submissions := st.submissions ++
              [{ id := newId, quoteId := quoteId, deviceId := d,
                 fillA := data.fillA, fillB := data.fillB, likes := ∅ }]
            dayLocks := lock st.dayLocks (dayKey quoteId d today) })

/-- Result of `POST /quotes/:id/skip`. -/
inductive SkipResult where
  | missingHeader
  | quoteNotFound
  | noContent
  deriving DecidableEq, Repr

/-- HTTP status of a skip result. -/
def skipStatus : SkipResult → Nat
  | .missingHeader => 400
  | .quoteNotFound => 404
  | .noContent => 204

/-- The `POST /quotes/:id/skip` handler: header check, the same
`!quotes[id]` truthiness test as submit, then it unconditionally adds the
day lock and answers 204 (it does not consult the lock registry before
writing). -/
def skipHandler (st : ServerState) (today : String) (deviceId : Option String)
    (quoteId : String) : SkipResult × ServerState :=
  match deviceId with
  | none => (.missingHeader, st)
  | some d =>
    if ! (quoteLookupTruthy quoteId) then (.quoteNotFound, st)
    else (.noContent,
      { st with dayLocks := lock st.dayLocks (dayKey quoteId d today) })

/-- Response body of `GET /quotes/today`. -/
structure TodayResponse where
  quote : Quote
  locked : Bool
  deriving DecidableEq, Repr

/-- The `GET /quotes/today` handler: always status 200; `locked` is computed
from the registry only when a device id is present, else `false`. -/
def todayHandler (st : ServerState) (today : String)
    (deviceId : Option String) : Nat × TodayResponse :=
  (200,
    { quote := quoteToday
      locked :=
        match deviceId with
        | none => false
        | some d => isLocked st.dayLocks (dayKey quoteToday.id d today) })

/-- One element of the ranking payload: the projection of a submission that
`GET /quotes/:id/ranking` sends to the client (`likes` is the set size). -/
structure RankingItem where
  id : String
  quoteId : String
  fillA : String
  fillB : String
  likes : Nat
  deriving DecidableEq, Repr

/-- The payload projection applied to each submission by the ranking
handler. -/
def proj (s : Submission) : RankingItem :=
  { id := s.id, quoteId := s.quoteId, fillA := s.fillA, fillB := s.fillB,
    likes := s.likes.card }

/-- The order the JS comparator
`(a, b) => b.likes.size - a.likes.size || (a.id < b.id ? 1 : -1)`
sorts by: `a` may precede `b` exactly when `compare(a,b) ≤ 0`, i.e. `a` has
strictly more likes, or equally many likes and an id that is not
lexicographically smaller. -/
def rankRel (a b : Submission) : Prop :=
  b.likes.card < a.likes.card ∨
    (a.likes.card = b.likes.card ∧ ¬ a.id < b.id)

instance : DecidableRel rankRel := fun a b => by
  unfold rankRel; exact inferInstance

/-- The same order on the projected payload records. -/
def rankRelItem (a b : RankingItem) : Prop :=
  b.likes < a.likes ∨ (a.likes = b.likes ∧ ¬ a.id < b.id)

instance : DecidableRel rankRelItem := fun a b => by
  unfold rankRelItem; exact inferInstance

instance : IsTotal Submission rankRel where
  total a b := by
    unfold rankRel
    rcases Nat.lt_trichotomy a.likes.card b.likes.card with h | h | h
    · exact Or.inr (Or.inl h)
    · rcases le_or_lt a.id b.id with h2 | h2
      · exact Or.inr (Or.inr ⟨h.symm, not_lt.mpr h2⟩)
      · exact Or.inl (Or.inr ⟨h, not_lt.mpr h2.le⟩)
    · exact Or.inl (Or.inl h)

instance : IsTrans Submission rankRel where
  trans a b c hab hbc := by
    unfold rankRel at *
    rcases hab with h1 | ⟨h1, h1'⟩
    · rcases hbc with h2 | ⟨h2, _⟩
      · exact Or.inl (h2.trans h1)
      · exact Or.inl (h2 ▸ h1)
    · rcases hbc with h2 | ⟨h2, h2'⟩
      · exact Or.inl (h1 ▸ h2)
      · exact Or.inr ⟨h1.trans h2,
          fun hlt => h1' (lt_of_lt_of_le hlt (not_lt.mp h2'))⟩

/-- The sorted, filtered submission list computed by the ranking handler:
`[...submissions.values()].filter(s => s.quoteId === id)` followed by
`list.sort(comparator)`.  With all stored ids distinct the comparator is a
strict total order, so the JS sort result is the unique sorted permutation,
which insertion sort computes. -/
def rankingList (st : ServerState) (quoteId : String) : List Submission :=
  (st.submissions.filter (fun s => s.quoteId == quoteId)).insertionSort rankRel

/-- The `GET /quotes/:id/ranking` handler: always status 200, never a quote
existence check; payload is the sorted list projected by `proj`. -/
def rankingHandler (st : ServerState) (quoteId : String) :
    Nat × List RankingItem :=
  (200, (rankingList st quoteId).map proj)

/-- Result of `POST /submissions/:sid/like`. -/
inductive LikeResult where
  | missingHeader
  | notFound
  | ok (likes : Nat)
  deriving DecidableEq, Repr

/-- HTTP status of a like result. -/
def likeStatus : LikeResult → Nat
  | .missingHeader => 400
  | .notFound => 404
  | .ok _ => 200

/-- The like toggle on a single submission record: delete the device from the
like set when present, add it otherwise. -/
def toggleSub (s : Submission) (d : String) : Submission :=
  if d ∈ s.likes then { s with likes := s.likes.erase d }
  else { s with likes := insert d s.likes }

/-- The store after the like toggle: the JS code mutates the found record in
place; with the store's ids unique this is the pointwise update of the entry
whose id matches. -/
def toggleStore (subs : List Submission) (sid d : String) : List Submission :=
  subs.map (fun t => if t.id == sid then toggleSub t d else t)

/-- The `POST /submissions/:sid/like` handler: header check, lookup by
submission id, then toggle the device in the like set and answer with the
resulting count only. -/
def likeHandler (st : ServerState) (deviceId : Option String)
    (sid : String) : LikeResult × ServerState :=
  match deviceId with
  | none => (.missingHeader, st)
  | some d =>
    match st.submissions.find? (fun s => s.id == sid) with
    | none => (.notFound, st)
    | some s =>
      (.ok (toggleSub s d).likes.card,
        { st with submissions := toggleStore st.submissions sid d })

/-- Observational equality of two server states from the client's viewpoint:
their stores agree on everything the ranking payload exposes (ids, quote ids,
fills and like counts), though the hidden author device ids and like-set
members may differ. -/
def ObsEq (st1 st2 : ServerState) : Prop :=
  st1.submissions.map proj = st2.submissions.map proj

/-! ### Helper lemmas -/

theorem toggleSub_id (s : Submission) (d : String) : (toggleSub s d).id = s.id := by
  unfold toggleSub
  split <;> rfl

theorem toggleSub_involutive (s : Submission) (d : String) :
    toggleSub (toggleSub s d) d = s := by
  unfold toggleSub
  by_cases h : d ∈ s.likes
  · simp [h, Finset.insert_erase h]
  · simp [h, Finset.erase_insert h]

theorem toggleStore_find_eq (subs : List Submission) (sid d : String) :
    (toggleStore subs sid d).find? (fun t => t.id == sid) =
      (subs.find? (fun t => t.id == sid)).map
        (fun t => if t.id == sid then toggleSub t d else t) := by
  have hpg : ((fun t : Submission => t.id == sid) ∘
      fun t => if t.id == sid then toggleSub t d else t) =
      (fun t : Submission => t.id == sid) := by
    funext t
    by_cases h : t.id == sid
    · simp [Function.comp, h, toggleSub_id]
    · simp [Function.comp, h]
  unfold toggleStore
  rw [List.find?_map, hpg]

theorem toggleStore_involutive (subs : List Submission) (sid d : String) :
    toggleStore (toggleStore subs sid d) sid d = subs := by
  unfold toggleStore
  rw [List.map_map]
  have h : ∀ t : Submission,
      ((fun t => if t.id == sid then toggleSub t d else t) ∘
        (fun t => if t.id == sid then toggleSub t d else t)) t = t := by
    intro t
    by_cases ht : t.id == sid
    · simp [Function.comp, ht, toggleSub_id, toggleSub_involutive]
    · simp [Function.comp, ht]
  calc subs.map _ = subs.map id := List.map_congr_left (fun t _ => h t)
    _ = subs := List.map_id subs

theorem likeHandler_state_involutive (st : ServerState) (d sid : String) :
    (likeHandler ((likeHandler st (some d) sid).2) (some d) sid).2 = st := by
  obtain ⟨subs, locks⟩ := st
  cases hf : subs.find? (fun t => t.id == sid) with
  | none =>
    simp [likeHandler, hf]
  | some s =>
    have hf2 : (toggleStore subs sid d).find? (fun t => t.id == sid) =
        some (if s.id == sid then toggleSub s d else s) := by
      rw [toggleStore_find_eq, hf]; rfl
    simp [likeHandler, hf, hf2, toggleStore_involutive]

theorem append_singleton_of_all_eq {α : Type} (a : α) :
    ∀ (u : List α), (∀ x ∈ u, x = a) → u ++ [a] = a :: u
  | [], _ => rfl
  | b :: u, h => by
    have hb : b = a := h b (by simp)
    have ih : u ++ [a] = a :: u :=
      append_singleton_of_all_eq a u (fun x hx => h x (by simp [hx]))
    simp [hb, ih]

/-- Permutation plus sortedness determines a list, given antisymmetry of the
order on the list's members. -/
theorem eq_of_perm_of_sorted_on {α : Type} {r : α → α → Prop} {l₁ l₂ : List α}
    (hp : l₁ ~ l₂) (hanti : ∀ a ∈ l₂, ∀ b ∈ l₂, r a b → r b a → a = b)
    (hs₁ : l₁.Sorted r) (hs₂ : l₂.Sorted r) : l₁ = l₂ := by
  induction hs₁ generalizing l₂ with
  | nil => exact hp.nil_eq
  | @cons a l₁ h₁ hs₁ IH =>
    have haml : a ∈ l₂ := hp.subset (List.mem_cons_self _ _)
    obtain ⟨u₂, v₂, rfl⟩ := List.append_of_mem haml
    have hsub : ∀ x, x ∈ u₂ ++ v₂ → x ∈ u₂ ++ a :: v₂ := by
      intro x hx
      rcases List.mem_append.mp hx with h | h
      · exact List.mem_append.mpr (Or.inl h)
      · exact List.mem_append.mpr (Or.inr (List.mem_cons_of_mem _ h))
    have hp' : l₁ ~ u₂ ++ v₂ := (List.perm_cons a).1 (hp.trans List.perm_middle)
    obtain rfl := IH hp'
      (fun x hx y hy => hanti x (hsub x hx) y (hsub y hy))
      (hs₂.sublist (by simp))
    have hall : ∀ x ∈ u₂, x = a := by
      intro x m
      exact hanti x (List.mem_append.mpr (Or.inl m)) a haml
        ((List.pairwise_append.1 hs₂).2.2 x m a (List.mem_cons_self _ _))
        (h₁ x (List.mem_append.mpr (Or.inl m)))
    show (a :: u₂) ++ v₂ = u₂ ++ a :: v₂
    rw [← append_singleton_of_all_eq a u₂ hall]
    simp

theorem dayKey_day_inj {q d D1 D2 : String} (h : dayKey q d D1 = dayKey q d D2) :
    D1 = D2 := by
  unfold dayKey at h
  have h2 := congrArg String.data h
  simp [String.data_append] at h2
  exact String.ext h2

theorem rankingPayload_eq (st : ServerState) (q : String) :
    (rankingHandler st q).2 =
      ((st.submissions.map proj).filter
        (fun t => t.quoteId == q)).insertionSort rankRelItem := by
  show (rankingList st q).map proj = _
  unfold rankingList
  rw [List.map_insertionSort rankRel rankRelItem proj _ (fun a _ b _ => Iff.rfl)]
  rw [List.filter_map]
  rfl

theorem find_congr_proj (sid : String) :
    ∀ {l1 l2 : List Submission}, l1.map proj = l2.map proj →
      (l1.find? (fun s => s.id == sid)).map proj =
        (l2.find? (fun s => s.id == sid)).map proj := by
  intro l1
  induction l1 with
  | nil =>
    intro l2 h
    cases l2 with
    | nil => rfl
    | cons b t2 => simp at h
  | cons a t ih =>
    intro l2 h
    cases l2 with
    | nil => simp at h
    | cons b t2 =>
      simp only [List.map_cons, List.cons.injEq] at h
      obtain ⟨hab, ht⟩ := h
      have hid : a.id = b.id := congrArg RankingItem.id hab
      by_cases hfa : a.id == sid
      · have hfb : b.id == sid := by rw [← hid]; exact hfa
        simp [List.find?_cons, hfa, hfb, hab]
      · have hfb : (b.id == sid) = false := by
          rw [← hid]; simpa using hfa
        simp only [List.find?_cons, hfa, hfb, cond_false]
        exact ih ht

theorem ranking_resp_of_obs_eq (st1 st2 : ServerState) (q : String)
    (h : ObsEq st1 st2) : rankingHandler st1 q = rankingHandler st2 q := by
  have h1 : (rankingHandler st1 q).1 = (rankingHandler st2 q).1 := rfl
  have h2 : (rankingHandler st1 q).2 = (rankingHandler st2 q).2 := by
    rw [rankingPayload_eq, rankingPayload_eq, h]
  exact Prod.ext h1 h2

theorem like_resp_of_obs_eq (st1 st2 : ServerState) (d sid : String)
    (h : ObsEq st1 st2)
    (hm : ∀ s1 s2, st1.submissions.find? (fun s => s.id == sid) = some s1 →
      st2.submissions.find? (fun s => s.id == sid) = some s2 →
      (d ∈ s1.likes ↔ d ∈ s2.likes)) :
    (likeHandler st1 (some d) sid).1 = (likeHandler st2 (some d) sid).1 := by
  have hf := find_congr_proj sid h
  cases h1 : st1.submissions.find? (fun s => s.id == sid) with
  | none =>
    cases h2 : st2.submissions.find? (fun s => s.id == sid) with
    | none => simp [likeHandler, h1, h2]
    | some s2 => rw [h1, h2] at hf; simp at hf
  | some s1 =>
    cases h2 : st2.submissions.find? (fun s => s.id == sid) with
    | none => rw [h1, h2] at hf; simp at hf
    | some s2 =>
      rw [h1, h2] at hf
      have hcard : s1.likes.card = s2.likes.card :=
        congrArg RankingItem.likes (Option.some.inj hf)
      have hmem := hm s1 s2 h1 h2
      simp only [likeHandler, h1, h2]
      have : (toggleSub s1 d).likes.card = (toggleSub s2 d).likes.card := by
        unfold toggleSub
        by_cases hd : d ∈ s1.likes
        · have hd2 : d ∈ s2.likes := hmem.mp hd
          simp [hd, hd2, Finset.card_erase_of_mem, hcard]
        · have hd2 : d ∉ s2.likes := fun hh => hd (hmem.mpr hh)
          simp [hd, hd2, Finset.card_insert_of_not_mem, hcard]
      rw [this]

/-! ### Claim theorems -/

/-- C2: for every quote id `q` and store snapshot, the ranking operation
returns exactly the submissions whose `quoteId` equals `q` (a permutation of
the filter), ordered by like count descending with ties broken by submission
id descending under the lexicographic string order (`Sorted rankRel`); the
payload is the projection of that list, and when the stored ids are distinct
any sorted permutation of the filter coincides with it, so the order is
deterministic for a fixed snapshot. -/
theorem ranking_filter_sorted_deterministic (st : ServerState) (q : String) :
    rankingList st q ~ st.submissions.filter (fun s => s.quoteId == q) ∧
    List.Sorted rankRel (rankingList st q) ∧
    (rankingHandler st q).2 = (rankingList st q).map proj ∧
    ((st.submissions.map Submission.id).Nodup →
      ∀ l : List Submission, List.Sorted rankRel l →
        l ~ st.submissions.filter (fun s => s.quoteId == q) →
        l = rankingList st q) := by
  refine ⟨List.perm_insertionSort _ _, List.sorted_insertionSort _ _, rfl, ?_⟩
  intro hnd l hsort hperm
  refine eq_of_perm_of_sorted_on
    (hperm.trans (List.perm_insertionSort _ _).symm) ?_ hsort
    (List.sorted_insertionSort _ _)
  intro a ha b hb hab hba
  have ha' : a ∈ st.submissions :=
    (List.mem_filter.mp ((List.mem_insertionSort _).mp ha)).1
  have hb' : b ∈ st.submissions :=
    (List.mem_filter.mp ((List.mem_insertionSort _).mp hb)).1
  have hid : a.id = b.id := by
    rcases hab with h1 | ⟨hc1, hn1⟩
    · rcases hba with h2 | ⟨hc2, _⟩
      · exact absurd h2 (lt_asymm h1)
      · exact absurd h1 (by rw [hc2]; exact lt_irrefl _)
    · rcases hba with h2 | ⟨_, hn2⟩
      · exact absurd h2 (by rw [hc1]; exact lt_irrefl _)
      · exact le_antisymm (not_lt.mp hn2) (not_lt.mp hn1)
  exact List.inj_on_of_nodup_map hnd ha' hb' hid

/-- Witness for C2, matching spec Scenario 6: two submissions with equal like
counts and ids `A < B`; the unique sorted order places `B` first. -/
theorem ranking_filter_sorted_deterministic_witness :
    [⟨"B", "q", "d2", "x", "y", ∅⟩, ⟨"A", "q", "d1", "x", "y", ∅⟩] =
      rankingList ⟨[⟨"A", "q", "d1", "x", "y", ∅⟩,
        ⟨"B", "q", "d2", "x", "y", ∅⟩], ∅⟩ "q" := by
  have hsort : List.Sorted rankRel
      [⟨"B", "q", "d2", "x", "y", ∅⟩, ⟨"A", "q", "d1", "x", "y", ∅⟩] := by
    refine List.Pairwise.cons ?_ (List.pairwise_singleton _ _)
    intro b hb
    rw [List.mem_singleton] at hb
    subst hb
    refine Or.inr ⟨rfl, ?_⟩
    rw [String.lt_iff_toList_lt]
    decide
  exact (ranking_filter_sorted_deterministic
      ⟨[⟨"A", "q", "d1", "x", "y", ∅⟩, ⟨"B", "q", "d2", "x", "y", ∅⟩], ∅⟩
      "q").2.2.2 (by decide) _ hsort (by decide)

/-- C3: the like toggle is an involution on the submission record; a single
toggle removes the device when present and inserts it when absent; the
handler answers with the resulting like count; and running the handler twice
with the same device and submission id restores the server state. -/
theorem like_toggle_law (s : Submission) (d : String) :
    toggleSub (toggleSub s d) d = s ∧
    (d ∈ s.likes → (toggleSub s d).likes = s.likes.erase d) ∧
    (d ∉ s.likes → (toggleSub s d).likes = insert d s.likes) ∧
    (∀ st : ServerState, ∀ sid : String,
      st.submissions.find? (fun t => t.id == sid) = some s →
      (likeHandler st (some d) sid).1 = .ok (toggleSub s d).likes.card) ∧
    (∀ st : ServerState, ∀ sid : String,
      (likeHandler ((likeHandler st (some d) sid).2) (some d) sid).2 = st) := by
  refine ⟨toggleSub_involutive s d, ?_, ?_, ?_, ?_⟩
  · intro h
    simp [toggleSub, h]
  · intro h
    simp [toggleSub, h]
  · intro st sid hf
    simp [likeHandler, hf]
  · intro st sid
    exact likeHandler_state_involutive st d sid

/-- Witness for C3: liking from a fresh device gives count 1; toggling on a
set already containing the device erases it; the handler reports count 1. -/
theorem like_toggle_law_witness :
    (toggleSub ⟨"s1", "q", "dev", "a", "b", ∅⟩ "d2").likes =
      insert "d2" (∅ : Finset String) ∧
    (toggleSub ⟨"s1", "q", "dev", "a", "b", {"d2"}⟩ "d2").likes =
      ({"d2"} : Finset String).erase "d2" ∧
    (likeHandler ⟨[⟨"s1", "q", "dev", "a", "b", ∅⟩], ∅⟩ (some "d2") "s1").1 =
      .ok 1 ∧
    (likeHandler ((likeHandler ⟨[⟨"s1", "q", "dev", "a", "b", ∅⟩], ∅⟩
        (some "d2") "s1").2) (some "d2") "s1").2 =
      ⟨[⟨"s1", "q", "dev", "a", "b", ∅⟩], ∅⟩ := by
  refine ⟨(like_toggle_law ⟨"s1", "q", "dev", "a", "b", ∅⟩ "d2").2.2.1
      (by decide),
    (like_toggle_law ⟨"s1", "q", "dev", "a", "b", {"d2"}⟩ "d2").2.1
      (by decide), ?_, ?_⟩
  · have h := (like_toggle_law ⟨"s1", "q", "dev", "a", "b", ∅⟩ "d2").2.2.2.1
      ⟨[⟨"s1", "q", "dev", "a", "b", ∅⟩], ∅⟩ "s1" (by decide)
    rw [h]
    decide
  · exact (like_toggle_law ⟨"s1", "q", "dev", "a", "b", ∅⟩ "d2").2.2.2.2
      ⟨[⟨"s1", "q", "dev", "a", "b", ∅⟩], ∅⟩ "s1"

/-- C7: `GET /quotes/today` always answers 200 with the quote; without an
`X-Device-Id` header the `locked` flag is `false` whatever the registry
holds; with a device id it is `true` exactly when the (quote, device, today)
key is in the registry. -/
theorem today_always_200_locked_flag (st : ServerState) (today d : String) :
    (∀ did, (todayHandler st today did).1 = 200 ∧
      (todayHandler st today did).2.quote = quoteToday) ∧
    (todayHandler st today none).2.locked = false ∧
    ((todayHandler st today (some d)).2.locked = true ↔
      dayKey quoteToday.id d today ∈ st.dayLocks) := by
  refine ⟨fun did => ⟨rfl, rfl⟩, rfl, ?_⟩
  simp [todayHandler, isLocked]

/-- C8: locking an already-locked key leaves the registry unchanged. -/
theorem lock_idempotent (locks : Finset String) (k : String)
    (h : isLocked locks k = true) : lock locks k = locks := by
  have hk : k ∈ locks := by simpa [isLocked] using h
  exact Finset.insert_eq_self.mpr hk

/-- Witness for C8 at a concrete key. -/
theorem lock_idempotent_witness :
    isLocked (lock ∅ "k") "k" = true ∧ lock (lock ∅ "k") "k" = lock ∅ "k" :=
  ⟨by decide, lock_idempotent _ _ (by decide)⟩

/-- C9: the ranking endpoint answers 200 for every quote id, known or not,
and when no stored submission names the quote the items list is empty. -/
theorem ranking_unknown_quote_200_empty (st : ServerState) (q : String) :
    (rankingHandler st q).1 = 200 ∧
    ((∀ s ∈ st.submissions, s.quoteId ≠ q) → (rankingHandler st q).2 = []) := by
  refine ⟨rfl, fun h => ?_⟩
  have hf : st.submissions.filter (fun s => s.quoteId == q) = [] := by
    rw [List.filter_eq_nil_iff]
    intro s hs
    simp [h s hs]
  show (rankingList st q).map proj = []
  rw [rankingList, hf]
  rfl

/-- Witness for C9: an id naming no existing quote, with a submission for a
different quote in the store. -/
theorem ranking_unknown_quote_200_empty_witness :
    (rankingHandler ⟨[⟨"s1", "2025-09-08", "dev", "a", "b", ∅⟩], ∅⟩
      "no-such-quote").2 = [] :=
  (ranking_unknown_quote_200_empty
    ⟨[⟨"s1", "2025-09-08", "dev", "a", "b", ∅⟩], ∅⟩ "no-such-quote").2
    (by decide)

/-- C1 counterexample: a successful submit locks (quote, device, day), yet a
skip for the same triple on the same day still answers 204, not 409 — the
skip handler never consults the lock registry before writing. -/
theorem skip_while_locked_returns_204 :
    (submitHandler ⟨[], ∅⟩ "2025-09-08" (some "dev1") "2025-09-08"
      ⟨some "미래", some "미래"⟩ "n1").1 = .created "n1" ∧
    isLocked (submitHandler ⟨[], ∅⟩ "2025-09-08" (some "dev1") "2025-09-08"
      ⟨some "미래", some "미래"⟩ "n1").2.dayLocks
      (dayKey "2025-09-08" "dev1" "2025-09-08") = true ∧
    skipStatus (skipHandler (submitHandler ⟨[], ∅⟩ "2025-09-08" (some "dev1")
      "2025-09-08" ⟨some "미래", some "미래"⟩ "n1").2 "2025-09-08"
      (some "dev1") "2025-09-08").1 = 204 ∧ (204 : Nat) ≠ 409 := by
  refine ⟨by decide, by decide, by decide, by decide⟩

/-- C1 amended: once (quote, device, day) is locked, every later submit for
the triple on the same day fails with ConflictError (409) and changes
nothing; a later skip, however, succeeds with 204 and leaves the state
unchanged (the lock write is idempotent) rather than failing with 409. -/
theorem locked_day_submit_conflicts_skip_succeeds (st : ServerState)
    (today d q : String) (b : RawBody) (nid : String)
    (hq : (quotes.lookup q).isSome = true)
    (hl : dayKey q d today ∈ st.dayLocks) :
    (submitHandler st today (some d) q b nid).1 = .conflict ∧
    submitStatus (submitHandler st today (some d) q b nid).1 = 409 ∧
    (submitHandler st today (some d) q b nid).2 = st ∧
    (skipHandler st today (some d) q).1 = .noContent ∧
    skipStatus (skipHandler st today (some d) q).1 = 204 ∧
    (skipHandler st today (some d) q).2 = st := by
  have hng : (! (quoteLookupTruthy q)) = false := by
    simp [quoteLookupTruthy, hq]
  have hl' : isLocked st.dayLocks (dayKey q d today) = true := by
    simp [isLocked, hl]
  have hs : (skipHandler st today (some d) q).2 = st := by
    simp only [skipHandler, hng, Bool.false_eq_true, if_false]
    have : lock st.dayLocks (dayKey q d today) = st.dayLocks :=
      Finset.insert_eq_self.mpr hl
    rw [this]
  refine ⟨?_, ?_, ?_, ?_, ?_, hs⟩ <;>
    simp [submitHandler, skipHandler, hng, hl', submitStatus, skipStatus]

/-- Witness for C1's amended statement at a concrete locked state. -/
theorem locked_day_submit_conflicts_skip_succeeds_witness :
    (quotes.lookup "2025-09-08").isSome = true ∧
    dayKey "2025-09-08" "dev1" "2025-09-08" ∈
      (insert (dayKey "2025-09-08" "dev1" "2025-09-08") ∅ : Finset String) ∧
    (submitHandler ⟨[], insert (dayKey "2025-09-08" "dev1" "2025-09-08") ∅⟩
      "2025-09-08" (some "dev1") "2025-09-08" ⟨some "a", some "b"⟩ "n2").1 =
      .conflict ∧
    (skipHandler ⟨[], insert (dayKey "2025-09-08" "dev1" "2025-09-08") ∅⟩
      "2025-09-08" (some "dev1") "2025-09-08").2 =
      ⟨[], insert (dayKey "2025-09-08" "dev1" "2025-09-08") ∅⟩ := by
  refine ⟨by decide, by decide, ?_, ?_⟩
  · exact (locked_day_submit_conflicts_skip_succeeds _ _ _ _ _ _
      (by decide) (by decide)).1
  · exact (locked_day_submit_conflicts_skip_succeeds
      ⟨[], insert (dayKey "2025-09-08" "dev1" "2025-09-08") ∅⟩
      "2025-09-08" "dev1" "2025-09-08" ⟨some "a", some "b"⟩ "n2"
      (by decide) (by decide)).2.2.2.2.2

/-- C4: the submit handler has no partial effect — on any non-created result
the state is untouched, and on a created result the store gains exactly the
new submission and the registry exactly the (quote, device, day) key. -/
theorem submit_no_partial_effect (st : ServerState) (today : String)
    (did : Option String) (q : String) (b : RawBody) (nid : String) :
    ((∀ i, (submitHandler st today did q b nid).1 ≠ .created i) →
      (submitHandler st today did q b nid).2 = st) ∧
    (∀ i, (submitHandler st today did q b nid).1 = .created i →
      i = nid ∧ ∃ d, did = some d ∧
        (submitHandler st today did q b nid).2.submissions =
          st.submissions ++
            [{ id := nid, quoteId := q, deviceId := d,
               fillA := b.fillA.getD "", fillB := b.fillB.getD "",
               likes := (∅ : Finset String) }] ∧
        (submitHandler st today did q b nid).2.dayLocks =
          lock st.dayLocks (dayKey q d today)) := by
  cases did with
  | none => exact ⟨fun _ => rfl, fun i h => by cases h⟩
  | some d =>
    cases hq : quoteLookupTruthy q with
    | false =>
      constructor
      · intro _
        simp [submitHandler, hq]
      · intro i h
        simp [submitHandler, hq] at h
    | true =>
      by_cases hl : isLocked st.dayLocks (dayKey q d today)
      · constructor
        · intro _
          simp [submitHandler, hq, hl]
        · intro i h
          simp [submitHandler, hq, hl] at h
      · cases hpb : parseSubmitBody b with
        | error iss =>
          constructor
          · intro _
            simp [submitHandler, hq, hl, hpb]
          · intro i h
            simp [submitHandler, hq, hl, hpb] at h
        | ok data =>
          have hdata : data =
              ⟨b.fillA.getD "", b.fillB.getD ""⟩ := by
            unfold parseSubmitBody at hpb
            split at hpb
            · exact (Except.ok.inj hpb).symm
            · cases hpb
          constructor
          · intro hno
            exact absurd (by simp [submitHandler, hq, hl, hpb]) (hno nid)
          · intro i h
            have hi : i = nid := by
              have : (submitHandler st today (some d) q b nid).1 =
                  .created nid := by
                simp [submitHandler, hq, hl, hpb]
              rw [this] at h
              exact (SubmitResult.created.inj h.symm)
            refine ⟨hi, d, rfl, ?_, ?_⟩ <;>
              simp [submitHandler, hq, hl, hpb, hdata]

/-- Witness for C4: a failing call (missing header) leaves the state intact;
a successful call appends the submission and sets the lock. -/
theorem submit_no_partial_effect_witness :
    (submitHandler ⟨[], ∅⟩ "2025-09-08" none "2025-09-08"
      ⟨some "a", some "b"⟩ "n1").2 = ⟨[], ∅⟩ ∧
    ((submitHandler ⟨[], ∅⟩ "2025-09-08" (some "dev1") "2025-09-08"
        ⟨some "a", some "b"⟩ "n1").1 = .created "n1" ∧
      ∃ d, (some "dev1" : Option String) = some d ∧
        (submitHandler ⟨[], ∅⟩ "2025-09-08" (some "dev1") "2025-09-08"
          ⟨some "a", some "b"⟩ "n1").2.submissions =
          [] ++ [{ id := "n1", quoteId := "2025-09-08", deviceId := d,
                   fillA := (some "a").getD "", fillB := (some "b").getD "",
                   likes := (∅ : Finset String) }] ∧
        (submitHandler ⟨[], ∅⟩ "2025-09-08" (some "dev1") "2025-09-08"
          ⟨some "a", some "b"⟩ "n1").2.dayLocks =
          lock ∅ (dayKey "2025-09-08" d "2025-09-08")) := by
  constructor
  · exact (submit_no_partial_effect ⟨[], ∅⟩ "2025-09-08" none "2025-09-08"
      ⟨some "a", some "b"⟩ "n1").1 (fun i h => by cases h)
  · have h := (submit_no_partial_effect ⟨[], ∅⟩ "2025-09-08" (some "dev1")
      "2025-09-08" ⟨some "a", some "b"⟩ "n1").2 "n1" (by decide)
    exact ⟨by decide, h.2⟩

/-- C5 (code bug): the missing-header 400, locked-409 and invalid-body
checks behave as claimed, but the quote-existence test at index.js lines
60-86 is the JS truthiness of `quotes[id]` on a plain object literal, which
inherits `Object.prototype`: the id "constructor" names an inherited truthy
member, skips the 404 branch, and a well-formed submit for that nonexistent
quote is accepted with 201 and stored (violating the invariant that a
submission's quoteId reference an existing quote), and a skip for
"toString" answers 204; an id outside both the catalog and the inherited
names still gets the intended 404. -/
theorem submit_unknown_quote_prototype_bypass :
    quotes.lookup "constructor" = none ∧
    "constructor" ∈ protoProps ∧
    (submitHandler ⟨[], ∅⟩ "2025-09-08" (some "dev1") "constructor"
      ⟨some "a", some "b"⟩ "n1").1 = .created "n1" ∧
    submitStatus (submitHandler ⟨[], ∅⟩ "2025-09-08" (some "dev1")
      "constructor" ⟨some "a", some "b"⟩ "n1").1 = 201 ∧
    (submitHandler ⟨[], ∅⟩ "2025-09-08" (some "dev1") "constructor"
      ⟨some "a", some "b"⟩ "n1").2.submissions =
      [⟨"n1", "constructor", "dev1", "a", "b", ∅⟩] ∧
    quotes.lookup "toString" = none ∧
    (skipHandler ⟨[], ∅⟩ "2025-09-08" (some "dev1") "toString").1 =
      .noContent ∧
    (submitHandler ⟨[], ∅⟩ "2025-09-08" (some "dev1") "no-such-quote"
      ⟨some "a", some "b"⟩ "n1").1 = .quoteNotFound := by
  refine ⟨by decide, by decide, by decide, by decide, by decide, by decide,
    by decide, by decide⟩

/-- C6: a lock taken on day `D1` does not block day `D2 ≠ D1` — the key
embeds the day, so on the new day the key reads unlocked, submit cannot
answer 409, and skip succeeds, with no cleanup involved. -/
theorem day_rollover_unblocks (st : ServerState) (q d D1 D2 : String)
    (b : RawBody) (nid : String) (hne : D2 ≠ D1)
    (hfresh : dayKey q d D2 ∉ st.dayLocks)
    (hq : (quotes.lookup q).isSome = true) :
    isLocked (lock st.dayLocks (dayKey q d D1)) (dayKey q d D2) = false ∧
    (submitHandler { st with dayLocks := lock st.dayLocks (dayKey q d D1) }
      D2 (some d) q b nid).1 ≠ .conflict ∧
    (skipHandler { st with dayLocks := lock st.dayLocks (dayKey q d D1) }
      D2 (some d) q).1 = .noContent := by
  have hmem : dayKey q d D2 ∉ lock st.dayLocks (dayKey q d D1) := by
    intro hmem
    rcases Finset.mem_insert.mp hmem with h | h
    · exact hne (dayKey_day_inj h)
    · exact hfresh h
  have htr : quoteLookupTruthy q = true := by
    simp [quoteLookupTruthy, hq]
  refine ⟨by simp [isLocked, hmem], ?_, by simp [skipHandler, htr]⟩
  have hlk : isLocked (lock st.dayLocks (dayKey q d D1)) (dayKey q d D2) =
      false := by simp [isLocked, hmem]
  cases hpb : parseSubmitBody b with
  | error iss => simp [submitHandler, htr, hlk, hpb]
  | ok data => simp [submitHandler, htr, hlk, hpb]

/-- Witness for C6: a lock taken on 2025-09-08 does not block 2025-09-09. -/
theorem day_rollover_unblocks_witness :
    isLocked (lock ∅ (dayKey "2025-09-08" "dev1" "2025-09-08"))
      (dayKey "2025-09-08" "dev1" "2025-09-09") = false ∧
    (submitHandler ⟨[], lock ∅ (dayKey "2025-09-08" "dev1" "2025-09-08")⟩
      "2025-09-09" (some "dev1") "2025-09-08" ⟨some "a", some "b"⟩
      "n1").1 ≠ .conflict := by
  have h := day_rollover_unblocks ⟨[], ∅⟩ "2025-09-08" "dev1" "2025-09-08"
    "2025-09-09" ⟨some "a", some "b"⟩ "n1" (by decide) (by decide) (by decide)
  exact ⟨h.1, h.2.1⟩

/-- C10 counterexample: two stores agreeing on every projected field —
including like counts — but differing in which device id is in the like set
produce different like-toggle responses (0 versus 2), so like responses are
not identical across such states; the toggle count reveals whether the
requesting device was in the like set. -/
theorem like_response_distinguishes_likers :
    proj ⟨"s1", "q", "auth", "a", "b", {"d"}⟩ =
      proj ⟨"s1", "q", "auth", "a", "b", {"e"}⟩ ∧
    ObsEq ⟨[⟨"s1", "q", "auth", "a", "b", {"d"}⟩], ∅⟩
      ⟨[⟨"s1", "q", "auth", "a", "b", {"e"}⟩], ∅⟩ ∧
    (likeHandler ⟨[⟨"s1", "q", "auth", "a", "b", {"d"}⟩], ∅⟩
      (some "d") "s1").1 = .ok 0 ∧
    (likeHandler ⟨[⟨"s1", "q", "auth", "a", "b", {"e"}⟩], ∅⟩
      (some "d") "s1").1 = .ok 2 ∧
    (likeHandler ⟨[⟨"s1", "q", "auth", "a", "b", {"d"}⟩], ∅⟩
      (some "d") "s1").1 ≠
      (likeHandler ⟨[⟨"s1", "q", "auth", "a", "b", {"e"}⟩], ∅⟩
        (some "d") "s1").1 := by
  refine ⟨by decide, ?_, by decide, by decide, by decide⟩
  unfold ObsEq
  decide

/-- C10 amended: the ranking payload projects each submission to exactly
(id, quoteId, fillA, fillB, like count), so two stores differing only in
which device ids made or liked submissions (with equal counts) produce
identical ranking responses; the like-toggle response carries only the
resulting count, and it coincides across such stores whenever they also
agree on whether the requesting device is in the target submission's like
set. -/
theorem responses_hide_device_identities (st1 st2 : ServerState)
    (q d sid : String) (h : ObsEq st1 st2) :
    rankingHandler st1 q = rankingHandler st2 q ∧
    (rankingHandler st1 q).2 = (rankingList st1 q).map proj ∧
    ((∀ s1 s2, st1.submissions.find? (fun s => s.id == sid) = some s1 →
        st2.submissions.find? (fun s => s.id == sid) = some s2 →
        (d ∈ s1.likes ↔ d ∈ s2.likes)) →
      (likeHandler st1 (some d) sid).1 = (likeHandler st2 (some d) sid).1) :=
  ⟨ranking_resp_of_obs_eq st1 st2 q h, rfl,
   fun hm => like_resp_of_obs_eq st1 st2 d sid h hm⟩

/-- Witness for C10's amended statement: stores differing only in the
submission's author device id give the same ranking and like responses. -/
theorem responses_hide_device_identities_witness :
    rankingHandler ⟨[⟨"s1", "q", "dev1", "a", "b", ∅⟩], ∅⟩ "q" =
      rankingHandler ⟨[⟨"s1", "q", "dev2", "a", "b", ∅⟩], ∅⟩ "q" ∧
    (likeHandler ⟨[⟨"s1", "q", "dev1", "a", "b", ∅⟩], ∅⟩
      (some "z") "s1").1 =
      (likeHandler ⟨[⟨"s1", "q", "dev2", "a", "b", ∅⟩], ∅⟩
        (some "z") "s1").1 := by
  have h := responses_hide_device_identities
    ⟨[⟨"s1", "q", "dev1", "a", "b", ∅⟩], ∅⟩
    ⟨[⟨"s1", "q", "dev2", "a", "b", ∅⟩], ∅⟩ "q" "z" "s1"
    (by unfold ObsEq; decide)
  refine ⟨h.1, h.2.2 ?_⟩
  intro s1 s2 h1 h2
  obtain rfl : (⟨"s1", "q", "dev1", "a", "b", ∅⟩ : Submission) = s1 :=
    Option.some.inj h1
  obtain rfl : (⟨"s1", "q", "dev2", "a", "b", ∅⟩ : Submission) = s2 :=
    Option.some.inj h2
  simp

end Waise
